import Mathlib

/-!
# A verification model of the TradingRoom calculators

This file embeds, in Lean, the numeric core of the TradingRoom web
application:

* the Position & Risk Calculator (`src/components/PositionSizer.jsx`,
  the `useEffect` at lines 102-156),
* the trade-close P&L computation (`src/App.jsx`, `handleCloseTrade`,
  lines 287-369, and its local state update `updateTradeLocally`),
* the Performance Analytics Engine
  (`src/components/PerformanceTearsheet.jsx`: `buildReturnSeries`,
  `calculateMetrics`, `buildHistogramData`).

JavaScript numbers are IEEE doubles; we model their values as exact
rationals extended with the special values `Infinity`, `-Infinity` and
`NaN` where division by zero can arise (the position calculator), and as
plain rationals elsewhere, where the theorems' hypotheses rule the special
values out.  Missing / empty form fields are modelled as `Option` values.
-/

/-- A JavaScript number: a finite (exact) value or one of the IEEE special
values `Infinity`, `-Infinity`, `NaN`.  We do not track signed zero; no
claim in this development depends on it. -/
inductive JSNum where
  | fin : ℚ → JSNum
  | inf : JSNum
  | ninf : JSNum
  | nan : JSNum
  deriving DecidableEq, Repr

namespace JSNum

/-- IEEE negation. -/
def neg : JSNum → JSNum
  | fin a => fin (-a)
  | inf => ninf
  | ninf => inf
  | nan => nan

/-- IEEE addition (restricted to the cases reachable from finite inputs). -/
def add : JSNum → JSNum → JSNum
  | nan, _ => nan
  | _, nan => nan
  | fin a, fin b => fin (a + b)
  | inf, ninf => nan
  | ninf, inf => nan
  | inf, _ => inf
  | _, inf => inf
  | ninf, _ => ninf
  | _, ninf => ninf

/-- IEEE subtraction: `a - b = a + (-b)`. -/
def sub (a b : JSNum) : JSNum := add a (neg b)

/-- IEEE multiplication. -/
def mul : JSNum → JSNum → JSNum
  | nan, _ => nan
  | _, nan => nan
  | fin a, fin b => fin (a * b)
  | inf, fin b => if 0 < b then inf else if b < 0 then ninf else nan
  | fin a, inf => if 0 < a then inf else if a < 0 then ninf else nan
  | ninf, fin b => if 0 < b then ninf else if b < 0 then inf else nan
  | fin a, ninf => if 0 < a then ninf else if a < 0 then inf else nan
  | inf, inf => inf
  | inf, ninf => ninf
  | ninf, inf => ninf
  | ninf, ninf => inf

/-- IEEE division.  A nonzero finite value divided by (positive) zero is a
signed infinity, `0 / 0` is `NaN`. -/
def div : JSNum → JSNum → JSNum
  | nan, _ => nan
  | _, nan => nan
  | fin a, fin b =>
      if b = 0 then (if 0 < a then inf else if a < 0 then ninf else nan)
      else fin (a / b)
  | fin _, inf => fin 0
  | fin _, ninf => fin 0
  | inf, fin b => if 0 ≤ b then inf else ninf
  | ninf, fin b => if 0 ≤ b then ninf else inf
  | inf, _ => nan
  | ninf, _ => nan

/-- The JavaScript comparison `x > 0` (false on `NaN`). -/
def gtz : JSNum → Bool
  | fin a => decide (0 < a)
  | inf => true
  | ninf => false
  | nan => false

@[simp] theorem sub_fin (a b : ℚ) : sub (fin a) (fin b) = fin (a - b) := by
  simp [sub, add, neg, sub_eq_add_neg]

@[simp] theorem mul_fin (a b : ℚ) : mul (fin a) (fin b) = fin (a * b) := rfl

theorem div_fin_of_ne (a : ℚ) {b : ℚ} (hb : b ≠ 0) :
    div (fin a) (fin b) = fin (a / b) := by
  simp [div, hb]

theorem div_fin_pos_zero {a : ℚ} (ha : 0 < a) :
    div (fin a) (fin 0) = inf := by
  simp [div, ha]

@[simp] theorem gtz_fin (a : ℚ) : gtz (fin a) = decide (0 < a) := rfl

end JSNum

/-! ## The Position & Risk Calculator

`src/components/PositionSizer.jsx`, lines 102-156.  The component state
fields `openPrice`, `stopLoss`, `takeProfit` are text inputs: an empty
field is falsy and is modelled as `none`; a filled field carries its
parsed numeric value.  `rValue`, `riskMultiple` and `leverage` are numeric
state, and `tradeType === 'long'` is modelled by the Boolean `isLong`. -/

/-- Inputs of the calculator effect. -/
structure CalcInput where
  openPrice : Option ℚ
  stopLoss : Option ℚ
  takeProfit : Option ℚ
  rValue : ℚ
  riskMultiple : ℚ
  leverage : ℚ
  isLong : Bool
  deriving DecidableEq, Repr

/-- The `calculations` state object set by the effect.  The source field
`riskRewardRatio` is called `riskReward` here. -/
structure Calculations where
  positionSize : JSNum
  riskAmount : JSNum
  potentialProfit : JSNum
  riskReward : JSNum
  stopLossPercent : JSNum
  takeProfitPercent : JSNum
  deriving DecidableEq, Repr

/-- The calculator effect of `PositionSizer.jsx` (lines 102-156).

The guard `openPrice && stopLoss && rValue` is string/number truthiness:
both text fields non-empty and `rValue ≠ 0`.  `tp` is
`parseFloat(takeProfit) || 0`.  The source also computes
`effectiveStopLossPercent = stopLossPercent * leverage`, which flows into
no output; it is omitted.  In the else-branch the source zeroes every
output except `riskAmount`, which is set to `rValue * riskMultiple`. -/
def calcPosition (inp : CalcInput) : Calculations :=
  match inp.openPrice, inp.stopLoss with
  | some op, some sl =>
    if inp.rValue ≠ 0 then
      let tp : ℚ := inp.takeProfit.getD 0
      let risk : ℚ := inp.rValue * inp.riskMultiple
      let stopLossPercent : JSNum :=
        if inp.isLong then
          JSNum.mul (JSNum.div (JSNum.sub (.fin op) (.fin sl)) (.fin op)) (.fin 100)
        else
          JSNum.mul (JSNum.div (JSNum.sub (.fin sl) (.fin op)) (.fin op)) (.fin 100)
      let positionSize : JSNum :=
        JSNum.div (.fin risk) (JSNum.div stopLossPercent (.fin 100))
      let takeProfitPercent : JSNum :=
        if tp ≠ 0 then
          if inp.isLong then
            JSNum.mul (JSNum.div (JSNum.sub (.fin tp) (.fin op)) (.fin op)) (.fin 100)
          else
            JSNum.mul (JSNum.div (JSNum.sub (.fin op) (.fin tp)) (.fin op)) (.fin 100)
        else .fin 0
      let potentialProfit : JSNum :=
        if tp ≠ 0 then JSNum.mul positionSize (JSNum.div takeProfitPercent (.fin 100))
        else .fin 0
      let riskReward : JSNum :=
        if JSNum.gtz takeProfitPercent then JSNum.div takeProfitPercent stopLossPercent
        else .fin 0
      { positionSize := positionSize
        riskAmount := .fin risk
        potentialProfit := potentialProfit
        riskReward := riskReward
        stopLossPercent := stopLossPercent
        takeProfitPercent := takeProfitPercent }
    else
      { positionSize := .fin 0, riskAmount := .fin (inp.rValue * inp.riskMultiple)
        potentialProfit := .fin 0, riskReward := .fin 0
        stopLossPercent := .fin 0, takeProfitPercent := .fin 0 }
  | _, _ =>
      { positionSize := .fin 0, riskAmount := .fin (inp.rValue * inp.riskMultiple)
        potentialProfit := .fin 0, riskReward := .fin 0
        stopLossPercent := .fin 0, takeProfitPercent := .fin 0 }

/-! ## Trade close: P&L computation and local state update

`src/App.jsx`, `handleCloseTrade` (lines 287-369).  The numeric core
(lines 298-306) computes `pnlPercent`, `pnlDollar` and `rResult` from the
stored trade and the close price; `updateTradeLocally` (lines 347-361)
rewrites the trade list.  The theorems' hypotheses keep `openPrice` and
`riskAmount` nonzero, so plain rational arithmetic is a faithful model
here (no division by zero can occur). -/

/-- The three values computed when a trade is closed. -/
structure CloseCalc where
  pnlPercent : ℚ
  pnlDollar : ℚ
  rResult : ℚ
  deriving DecidableEq, Repr

/-- The P&L computation of `handleCloseTrade` (`src/App.jsx` 298-306). -/
def closeTradeCalc (isLong : Bool) (openPrice positionSize riskAmount riskMultiple closePrice : ℚ) :
    CloseCalc :=
  let pnlPercent : ℚ :=
    if isLong then (closePrice - openPrice) / openPrice * 100
    else (openPrice - closePrice) / openPrice * 100
  let pnlDollar : ℚ := positionSize * (pnlPercent / 100)
  let rResult : ℚ := pnlDollar / riskAmount * riskMultiple
  ⟨pnlPercent, pnlDollar, rResult⟩

/-- A stored trade record, as assembled by `handleOpenTrade`
(`PositionSizer.jsx` 174-187) and completed on close.  Fields that are
absent until the trade closes are `Option`s. -/
structure Trade where
  id : ℕ
  symbol : String
  type : String
  openPrice : ℚ
  stopLoss : ℚ
  takeProfit : Option ℚ
  leverage : ℚ
  positionSize : ℚ
  riskAmount : ℚ
  riskMultiple : ℚ
  openDate : String
  status : String
  closePrice : Option ℚ
  closeDate : Option String
  pnlPercent : Option ℚ
  pnlDollar : Option ℚ
  rResult : Option ℚ
  comment : Option String
  deriving DecidableEq, Repr

/-- The object-spread `{ ...t, closePrice, closeDate, status: 'closed',
pnlPercent, pnlDollar, rResult, comment }` of `updateTradeLocally`. -/
def closeFields (cp : ℚ) (cd : String) (pp pd rr : ℚ) (cm : String) (t : Trade) : Trade :=
  { t with
    closePrice := some cp
    closeDate := some cd
    status := "closed"
    pnlPercent := some pp
    pnlDollar := some pd
    rResult := some rr
    comment := some cm }

/-- `updateTradeLocally` (`src/App.jsx` 347-361): map over the trade list,
leaving every trade with a different id untouched and spreading the close
fields onto the matching one. -/
def updateTradeLocally (trades : List Trade) (tradeId : ℕ) (cp : ℚ) (cd : String)
    (pp pd rr : ℚ) (cm : String) : List Trade :=
  trades.map fun t => if t.id ≠ tradeId then t else closeFields cp cd pp pd rr cm t

/-! ## The Performance Analytics Engine

`src/components/PerformanceTearsheet.jsx`.  Dates are modelled by their
JavaScript time value (milliseconds since the epoch) as an exact rational;
`String(t.closeDate).slice(0, 10)` keeps only the calendar date, i.e.
truncates the time value down to a whole day. -/

/-- One entry of the return series: the (day-truncated) close date's time
value and the per-trade portfolio return (`return` in the source). -/
structure RetPoint where
  date : ℚ
  ret : ℚ
  deriving DecidableEq, Repr

/-- The fields of a closed trade that `buildReturnSeries` reads.  A trade
missing either field (falsy `closeDate` / null `pnlDollar`) has `none`. -/
structure TradeRec where
  closeDate : Option ℚ
  pnlDollar : Option ℚ
  deriving DecidableEq, Repr

/-- The filter `t.closeDate && t.pnlDollar != null` (line 25). -/
def hasData (t : TradeRec) : Bool := t.closeDate.isSome && t.pnlDollar.isSome

/-- The numeric time value of `t.closeDate` (`new Date(t.closeDate)`);
only applied to trades that pass `hasData`. -/
def closeVal (t : TradeRec) : ℚ := t.closeDate.getD 0

/-- `t.pnlDollar || 0` (lines 31 and 42). -/
def pnlVal (t : TradeRec) : ℚ := t.pnlDollar.getD 0

/-- Milliseconds in a day. -/
def msPerDay : ℚ := 86400000

/-- `String(t.closeDate).slice(0, 10)` re-read as a date: truncation of
the time value to the start of its day. -/
def dayTrunc (q : ℚ) : ℚ := (⌊q / msPerDay⌋ : ℤ) * msPerDay

/-- The filter-then-sort prefix of `buildReturnSeries` (lines 25-28):
drop trades without `closeDate`/`pnlDollar`, then sort ascending by
close-date time value (`Array.prototype.sort` is stable; insertion sort
by a total preorder models it). -/
def sortedTrades (closedTrades : List TradeRec) : List TradeRec :=
  List.insertionSort (fun a b => closeVal a ≤ closeVal b) (closedTrades.filter hasData)

/-- The loop of `buildReturnSeries` (lines 41-49), carrying the running
balance. -/
def seriesGo (running : ℚ) : List TradeRec → List RetPoint
  | [] => []
  | t :: ts =>
    let pnl := pnlVal t
    let balanceBefore := max running 1
    let r0 : ℚ := if 0 < balanceBefore then pnl / balanceBefore else 0
    let r : ℚ := max (-2) (min 2 r0)
    ⟨dayTrunc (closeVal t), r⟩ :: seriesGo (max 0 (running + pnl)) ts

/-- Result record of `buildReturnSeries`. -/
structure BRS where
  returnSeries : List RetPoint
  startBalance : ℚ
  totalPnL : ℚ
  deriving DecidableEq, Repr

/-- The body of `buildReturnSeries` after sorting (lines 29-51). -/
def brsFromSorted (sorted : List TradeRec) (initialBalance : ℚ) : BRS :=
  if sorted.length = 0 then ⟨[], initialBalance, 0⟩
  else
    let totalPnL : ℚ := sorted.foldl (fun s t => s + pnlVal t) 0
    let startBalance0 : ℚ := initialBalance - totalPnL
    let minSensible : ℚ := max (initialBalance * 0.1) 100
    let startBalance : ℚ :=
      if startBalance0 < minSensible then max initialBalance 1000 else startBalance0
    ⟨seriesGo startBalance sorted, startBalance, totalPnL⟩

/-- `buildReturnSeries` (`PerformanceTearsheet.jsx` 24-52). -/
def buildReturnSeries (closedTrades : List TradeRec) (initialBalance : ℚ) : BRS :=
  brsFromSorted (sortedTrades closedTrades) initialBalance

/-! ### `calculateMetrics` (lines 54-117)

The source uses `Math.sqrt` and `Math.pow`; we use the exact real-valued
`Real.sqrt` and real exponentiation, so the metrics record is real-valued
and the pure-rational subcomputations are separate computable functions. -/

/-- `returnSeries.reduce((acc, r) => acc * (1 + r.return), 1) - 1`. -/
def cumOf (rs : List RetPoint) : ℚ := rs.foldl (fun acc r => acc * (1 + r.ret)) 1 - 1

/-- Date of the first entry (`returnSeries[0].date`). -/
def firstDateOf : List RetPoint → ℚ
  | [] => 0
  | r :: _ => r.date

/-- Date of the last entry (`returnSeries[returnSeries.length - 1].date`). -/
def lastDateOf (rs : List RetPoint) : ℚ := (rs.getLastD ⟨0, 0⟩).date

/-- Milliseconds in a year of 365.25 days. -/
def msPerYear : ℚ := 365.25 * 24 * 60 * 60 * 1000

/-- `years = max((last - first) / (365.25*24*60*60*1000), 1/365.25)` (line 72). -/
def yearsOf (rs : List RetPoint) : ℚ :=
  max ((lastDateOf rs - firstDateOf rs) / msPerYear) (1 / 365.25)

/-- Mean per-trade return (line 76). -/
def avgOf (rs : List RetPoint) : ℚ := (rs.foldl (fun s r => s + r.ret) 0) / rs.length

/-- Bessel-corrected sample variance: divide by `n - 1` when `n > 1`,
else 0 (lines 77-80). -/
def varianceOf (rs : List RetPoint) : ℚ :=
  if 1 < rs.length then
    (rs.foldl (fun s r => s + (r.ret - avgOf rs) ^ 2) 0) / (rs.length - 1)
  else 0

/-- `periodsPerYear = n / years` (line 82). -/
def ppyOf (rs : List RetPoint) : ℚ := rs.length / yearsOf rs

/-- `annualizedVolatility = sqrt(variance) * sqrt(max(periodsPerYear, 1))`
(lines 81-83). -/
noncomputable def annVolOf (rs : List RetPoint) : ℝ :=
  Real.sqrt (varianceOf rs) * Real.sqrt ((max (ppyOf rs) 1 : ℚ))

/-- `annualizedReturn = (1 + cumulativeReturn) ^ (1 / years) - 1` (line 74). -/
noncomputable def annRetOf (rs : List RetPoint) : ℝ :=
  (1 + (cumOf rs : ℝ)) ^ ((1 : ℝ) / (yearsOf rs : ℚ)) - 1

/-- The max-drawdown loop over the cumulative curve (lines 91-97); the
state is `(peak, maxDrawdown)`. -/
def mddLoop : ℚ × ℚ → List ℚ → ℚ
  | (_, m), [] => m
  | (peak, m), c :: cs =>
    let peak' := if peak < c then c else peak
    let dd : ℚ := if 0 < peak' then (peak' - c) / peak' else 0
    mddLoop (peak', if m < dd then dd else m) cs

/-- `cum`: the cumulative curve `[1, ...]` (lines 89-90). -/
def cumCurve (rs : List RetPoint) : List ℚ :=
  List.scanl (fun c r => c * (1 + r.ret)) 1 rs

/-- Max drawdown of the cumulative curve (lines 88-97). -/
def mddOf (rs : List RetPoint) : ℚ := mddLoop (1, 0) (cumCurve rs).tail

/-- Mean square of the negative returns (lines 99-103). -/
def downsideVarOf (rs : List RetPoint) : ℚ :=
  let neg := rs.filter (fun r => r.ret < 0)
  if neg.length = 0 then 0
  else (neg.foldl (fun s r => s + r.ret * r.ret) 0) / neg.length

/-- `annualizedDownside` (lines 104-105). -/
noncomputable def annDownOf (rs : List RetPoint) : ℝ :=
  Real.sqrt (downsideVarOf rs) * Real.sqrt ((max (ppyOf rs) 1 : ℚ))

/-- The metrics record; `null` is `none`.  The source fields `sharpeRatio`
and `sortinoRatio` are called `sharpe` and `sortino` here. -/
structure Metrics where
  cumulativeReturn : Option ℚ
  annualizedReturn : Option ℝ
  annualizedVolatility : Option ℝ
  sharpe : Option ℝ
  maxDrawdown : Option ℚ
  sortino : Option ℝ

/-- `calculateMetrics` (`PerformanceTearsheet.jsx` 54-117): all fields
null on an empty series, otherwise assembled from the computations
above; Sharpe and Sortino are null when their denominator is not
positive. -/
noncomputable def calculateMetrics : List RetPoint → Metrics
  | [] => ⟨none, none, none, none, none, none⟩
  | rs =>
    { cumulativeReturn := some (cumOf rs)
      annualizedReturn := some (annRetOf rs)
      annualizedVolatility := some (annVolOf rs)
      sharpe := if 0 < annVolOf rs then some (annRetOf rs / annVolOf rs) else none
      maxDrawdown := some (mddOf rs)
      sortino := if 0 < annDownOf rs then some (annRetOf rs / annDownOf rs) else none }

/-! ### `buildHistogramData` (lines 208-235)

The bucket store is a JavaScript object whose keys are the strings
`low.toFixed(1)`; we model a key by the integer `round(low * 10)` (the
rounded tenths digit string) and the object by an insertion-ordered
association list with JavaScript assignment semantics (update in place if
the key exists, else append). -/

/-- The key `low.toFixed(1)` of a bucket's lower bound. -/
def keyOf (low : ℚ) : ℤ := round (low * 10)

/-- JavaScript object assignment `obj[k] = v`. -/
def objSet : List (ℤ × ℕ) → ℤ → ℕ → List (ℤ × ℕ)
  | [], k, v => [(k, v)]
  | (k', v') :: rest, k, v =>
    if k' = k then (k, v) :: rest else (k', v') :: objSet rest k v

/-- JavaScript object read `obj[k] || 0`. -/
def objGet (m : List (ℤ × ℕ)) (k : ℤ) : ℕ :=
  ((m.find? (fun e => e.1 = k)).map Prod.snd).getD 0

/-- `buildHistogramData` (`PerformanceTearsheet.jsx` 208-235), returning
the `(label, count)` pairs with the label kept as its `keyOf` integer.
`Math.min(...pcts)` / `Math.max(...pcts)` need a non-empty list, matched
here; `step = span / numBuckets || 0.5` keeps the source's fallback.  The
final `Object.entries(...).sort(...)` orders buckets by the numeric value
of the label. -/
def buildHistogramData (returnSeries : List RetPoint) (numBuckets : ℕ) : List (ℤ × ℕ) :=
  match returnSeries.map (fun r => r.ret * 100) with
  | [] => []
  | p0 :: prest =>
    let minv : ℚ := prest.foldl min p0
    let maxv : ℚ := prest.foldl max p0
    let span : ℚ := max (maxv - minv) 0.5
    let step : ℚ := if span / numBuckets = 0 then 0.5 else span / numBuckets
    let initB : List (ℤ × ℕ) :=
      (List.range numBuckets).foldl (fun m i => objSet m (keyOf (minv + i * step)) 0) []
    let filled : List (ℤ × ℕ) :=
      (p0 :: prest).foldl
        (fun m p =>
          let i : ℤ := max 0 (min ⌊(p - minv) / step⌋ ((numBuckets : ℤ) - 1))
          let k : ℤ := keyOf (minv + i * step)
          objSet m k (objGet m k + 1))
        initB
    List.insertionSort (fun a b => a.1 ≤ b.1) filled

/-- The list of running balances after each trade of the
`buildReturnSeries` loop: each is `max 0 (running + pnlDollar)`
(`PerformanceTearsheet.jsx` line 48). -/
def runningBalances (start : ℚ) (ts : List TradeRec) : List ℚ :=
  (List.scanl (fun run t => max 0 (run + pnlVal t)) start ts).tail

/-- Modelled from the spec (§5 Volatility): the Bessel-corrected sample
variance of the per-trade returns, written as the spec states it. -/
def specSampleVariance (rs : List RetPoint) : ℚ :=
  if 1 < rs.length then
    ((rs.map (fun r => (r.ret - (rs.map RetPoint.ret).sum / rs.length) ^ 2)).sum)
      / (rs.length - 1)
  else 0

/-- Modelled from the spec's claim: annualized volatility as the sample
standard deviation multiplied by `sqrt(periodsPerYear)` (with no clamp of
`periodsPerYear` to 1). -/
noncomputable def claimAnnVol (rs : List RetPoint) : ℝ :=
  Real.sqrt (specSampleVariance rs) * Real.sqrt ((ppyOf rs : ℚ))

/-- A concrete open trade used by witnesses. -/
def sampleOpenTrade : Trade :=
  ⟨7, "BTCUSDT", "long", 100, 90, none, 1, 1000, 100, 1, "2024-01-01", "open",
    none, none, none, none, none, none⟩

/-- A second concrete open trade with a different id. -/
def sampleOtherTrade : Trade :=
  ⟨8, "ETHUSDT", "long", 50, 45, none, 1, 500, 50, 1, "2024-01-02", "open",
    none, none, none, none, none, none⟩

/-! ## Theorems -/

/-- Evaluation of the calculator's `positionSize` on a long input with
both prices present and a nonzero stop distance. -/
theorem calcPosition_positionSize_long (op sl rv rm lev : ℚ) (tpOpt : Option ℚ)
    (hop : op ≠ 0) (hrv : rv ≠ 0) (hslp : (op - sl) / op * 100 ≠ 0) :
    (calcPosition ⟨some op, some sl, tpOpt, rv, rm, lev, true⟩).positionSize
      = JSNum.fin (rv * rm / ((op - sl) / op * 100 / 100)) := by
  have h100 : (100 : ℚ) ≠ 0 := by norm_num
  have hslp2 : (op - sl) / op * 100 / 100 ≠ 0 := div_ne_zero hslp h100
  simp only [calcPosition, hrv, ne_eq, not_false_eq_true, if_true, ite_true]
  rw [JSNum.sub_fin, JSNum.div_fin_of_ne _ hop, JSNum.mul_fin,
    JSNum.div_fin_of_ne _ h100, JSNum.div_fin_of_ne _ hslp2]

/-- Full evaluation of the calculator on a long input with all three
prices present, nonzero take profit and nonzero stop distance. -/
theorem calcPosition_long_eval (op sl tp rv rm lev : ℚ)
    (hop : op ≠ 0) (hrv : rv ≠ 0) (htp : tp ≠ 0) (hslp : (op - sl) / op * 100 ≠ 0) :
    calcPosition ⟨some op, some sl, some tp, rv, rm, lev, true⟩ =
      { positionSize := .fin (rv * rm / ((op - sl) / op * 100 / 100))
        riskAmount := .fin (rv * rm)
        potentialProfit :=
          .fin (rv * rm / ((op - sl) / op * 100 / 100) * ((tp - op) / op * 100 / 100))
        riskReward :=
          if 0 < (tp - op) / op * 100 then
            .fin ((tp - op) / op * 100 / ((op - sl) / op * 100))
          else .fin 0
        stopLossPercent := .fin ((op - sl) / op * 100)
        takeProfitPercent := .fin ((tp - op) / op * 100) } := by
  have h100 : (100 : ℚ) ≠ 0 := by norm_num
  have hslp2 : (op - sl) / op * 100 / 100 ≠ 0 := div_ne_zero hslp h100
  simp only [calcPosition, hrv, ne_eq, not_false_eq_true, if_true, ite_true, htp,
    Option.getD_some]
  simp only [JSNum.sub_fin, JSNum.div_fin_of_ne _ hop, JSNum.mul_fin,
    JSNum.div_fin_of_ne _ h100, JSNum.div_fin_of_ne _ hslp2, JSNum.div_fin_of_ne _ hslp,
    JSNum.gtz_fin, decide_eq_true_eq]

/-- C1 counterexample.  The claim "every output field is 0 when a required
field is missing, and the calculator never emits Infinity" is false on the
code: with `stopLoss` missing the `riskAmount` output is
`rValue * riskMultiple`, not 0; and with `stopLoss = openPrice` (stop
distance 0) the unguarded division makes `positionSize` `Infinity`. -/
theorem C1_counterexample :
    (calcPosition ⟨some 100, none, none, 100, 1, 1, true⟩).riskAmount ≠ JSNum.fin 0 ∧
    (calcPosition ⟨some 100, some 100, none, 100, 1, 1, true⟩).positionSize = JSNum.inf := by
  constructor
  · simp only [calcPosition]
    norm_num
  · have h1 : (0 : ℚ) < 100 * 1 := by norm_num
    have h2 : (100 : ℚ) ≠ 0 := by norm_num
    simp only [calcPosition, ne_eq, OfNat.ofNat_ne_zero, not_false_eq_true, ite_true]
    rw [JSNum.sub_fin, sub_self, JSNum.div_fin_of_ne _ h2, zero_div, JSNum.mul_fin,
      zero_mul, JSNum.div_fin_of_ne _ h2, zero_div, JSNum.div_fin_pos_zero h1]

/-- C1 (amended).  When a required input (`openPrice`, `stopLoss`, in the
truthiness sense, or a nonzero `rValue`) is missing, the calculator zeroes
every output *except* `riskAmount`, which it sets to
`rValue * riskMultiple`; and when the inputs are present the calculator
applies no guard for `stopLossPercent <= 0`: at `stopLoss = openPrice`
with a positive risk amount, `positionSize` is `Infinity`. -/
theorem C1_amended :
    (∀ inp : CalcInput,
        inp.openPrice = none ∨ inp.stopLoss = none ∨ inp.rValue = 0 →
        calcPosition inp =
          { positionSize := .fin 0, riskAmount := .fin (inp.rValue * inp.riskMultiple),
            potentialProfit := .fin 0, riskReward := .fin 0,
            stopLossPercent := .fin 0, takeProfitPercent := .fin 0 }) ∧
    (∀ (op rv rm lev : ℚ) (tpOpt : Option ℚ),
        0 < rv * rm → op ≠ 0 →
        (calcPosition ⟨some op, some op, tpOpt, rv, rm, lev, true⟩).positionSize
          = JSNum.inf) := by
  constructor
  · rintro ⟨op, sl, tp, rv, rm, lev, isL⟩ h
    cases op with
    | none => cases sl <;> rfl
    | some a =>
      cases sl with
      | none => rfl
      | some b =>
        have hrv : rv = 0 := by
          rcases h with h | h | h
          · exact absurd h (by simp)
          · exact absurd h (by simp)
          · exact h
        simp [calcPosition, hrv]
  · intro op rv rm lev tpOpt h1 h2
    have hrv : rv ≠ 0 := by
      rintro rfl
      rw [zero_mul] at h1
      exact lt_irrefl 0 h1
    have h100 : (100 : ℚ) ≠ 0 := by norm_num
    simp only [calcPosition, hrv, ne_eq, not_false_eq_true, ite_true]
    rw [JSNum.sub_fin, sub_self, JSNum.div_fin_of_ne _ h2, zero_div, JSNum.mul_fin,
      zero_mul, JSNum.div_fin_of_ne _ h100, zero_div, JSNum.div_fin_pos_zero h1]

/-- Witness for C1 (amended) at concrete inputs. -/
theorem C1_witness :
    calcPosition ⟨none, some 5, none, 100, 1, 1, true⟩ =
      { positionSize := .fin 0, riskAmount := .fin (100 * 1),
        potentialProfit := .fin 0, riskReward := .fin 0,
        stopLossPercent := .fin 0, takeProfitPercent := .fin 0 } ∧
    (calcPosition ⟨some 50, some 50, none, 100, 1, 1, true⟩).positionSize = JSNum.inf :=
  ⟨C1_amended.1 ⟨none, some 5, none, 100, 1, 1, true⟩ (Or.inl rfl),
   C1_amended.2 50 100 1 1 none (by norm_num) (by norm_num)⟩

/-- C2.  For every valid long trade (`stopLoss < openPrice < takeProfit`,
positive `openPrice` and positive unit risk value), the calculator's
`riskRewardRatio` is strictly positive and
`positionSize × stopLossPercent / 100 = riskAmount` exactly. -/
theorem C2_theorem (op sl tp rv rm lev : ℚ)
    (hop : 0 < op) (hsl : sl < op) (htp : op < tp) (hrv : 0 < rv) :
    (calcPosition ⟨some op, some sl, some tp, rv, rm, lev, true⟩).riskReward.gtz = true ∧
    JSNum.div
        (JSNum.mul (calcPosition ⟨some op, some sl, some tp, rv, rm, lev, true⟩).positionSize
          (calcPosition ⟨some op, some sl, some tp, rv, rm, lev, true⟩).stopLossPercent)
        (JSNum.fin 100)
      = (calcPosition ⟨some op, some sl, some tp, rv, rm, lev, true⟩).riskAmount := by
  have hop' : op ≠ 0 := ne_of_gt hop
  have hslp : 0 < (op - sl) / op * 100 :=
    mul_pos (div_pos (sub_pos.2 hsl) hop) (by norm_num)
  have htpp : 0 < (tp - op) / op * 100 :=
    mul_pos (div_pos (sub_pos.2 htp) hop) (by norm_num)
  have htp0 : tp ≠ 0 := ne_of_gt (hop.trans htp)
  rw [calcPosition_long_eval op sl tp rv rm lev hop' (ne_of_gt hrv) htp0 (ne_of_gt hslp)]
  constructor
  · rw [if_pos htpp]
    simp [div_pos htpp hslp]
  · rw [JSNum.mul_fin, JSNum.div_fin_of_ne _ (by norm_num : (100 : ℚ) ≠ 0)]
    congr 1
    have hd : op - sl ≠ 0 := ne_of_gt (sub_pos.2 hsl)
    field_simp

/-- Witness for C2 at `openPrice = 100`, `stopLoss = 90`,
`takeProfit = 120`, `rValue = 50`, `riskMultiple = 2`. -/
theorem C2_witness :
    (calcPosition ⟨some 100, some 90, some 120, 50, 2, 1, true⟩).riskReward.gtz = true ∧
    JSNum.div
        (JSNum.mul (calcPosition ⟨some 100, some 90, some 120, 50, 2, 1, true⟩).positionSize
          (calcPosition ⟨some 100, some 90, some 120, 50, 2, 1, true⟩).stopLossPercent)
        (JSNum.fin 100)
      = (calcPosition ⟨some 100, some 90, some 120, 50, 2, 1, true⟩).riskAmount :=
  C2_theorem 100 90 120 50 2 1 (by norm_num) (by norm_num) (by norm_num) (by norm_num)

/-- C3.  A long trade sized by the calculator
(`positionSize = riskAmount / (stopLossPercent / 100)`, with
`stopLoss < openPrice`, positive prices and positive risk amount) and
then closed at `closePrice = stopLoss` loses exactly the risk amount:
`pnlDollar = -riskAmount`. -/
theorem C3_theorem (op sl rv rm lev : ℚ) (tpOpt : Option ℚ)
    (h0 : 0 < sl) (h1 : sl < op) (h2 : 0 < rv * rm) :
    (calcPosition ⟨some op, some sl, tpOpt, rv, rm, lev, true⟩).positionSize
      = JSNum.fin (rv * rm / ((op - sl) / op * 100 / 100)) ∧
    (closeTradeCalc true op (rv * rm / ((op - sl) / op * 100 / 100)) (rv * rm) rm sl).pnlDollar
      = -(rv * rm) := by
  have hop : 0 < op := h0.trans h1
  have hop' : op ≠ 0 := ne_of_gt hop
  have hd : op - sl ≠ 0 := ne_of_gt (sub_pos.2 h1)
  have hslp : (op - sl) / op * 100 ≠ 0 :=
    ne_of_gt (mul_pos (div_pos (sub_pos.2 h1) hop) (by norm_num))
  have hrv : rv ≠ 0 := by
    rintro rfl
    rw [zero_mul] at h2
    exact lt_irrefl 0 h2
  refine ⟨calcPosition_positionSize_long op sl rv rm lev tpOpt hop' hrv hslp, ?_⟩
  simp only [closeTradeCalc, ite_true]
  field_simp
  ring

/-- Witness for C3 at `openPrice = 100`, `stopLoss = 90`, `rValue = 50`,
`riskMultiple = 2`. -/
theorem C3_witness :
    (calcPosition ⟨some 100, some 90, none, 50, 2, 1, true⟩).positionSize
      = JSNum.fin (50 * 2 / ((100 - 90) / 100 * 100 / 100)) ∧
    (closeTradeCalc true 100 (50 * 2 / ((100 - 90) / 100 * 100 / 100)) (50 * 2) 2 90).pnlDollar
      = -(50 * 2) :=
  C3_theorem 100 90 50 2 1 none (by norm_num) (by norm_num) (by norm_num)

/-- C4.  On close, `rResult = pnlDollar / riskAmount × riskMultiple`; and
when `riskAmount = unitRiskValue × riskMultiple` with both factors
nonzero, this equals `pnlDollar / unitRiskValue`. -/
theorem C4_theorem (isLong : Bool) (op ps rv rm cp : ℚ) (hrv : rv ≠ 0) (hrm : rm ≠ 0) :
    (closeTradeCalc isLong op ps (rv * rm) rm cp).rResult
      = (closeTradeCalc isLong op ps (rv * rm) rm cp).pnlDollar / (rv * rm) * rm ∧
    (closeTradeCalc isLong op ps (rv * rm) rm cp).rResult
      = (closeTradeCalc isLong op ps (rv * rm) rm cp).pnlDollar / rv := by
  refine ⟨rfl, ?_⟩
  have key : ∀ x : ℚ, x / (rv * rm) * rm = x / rv := by
    intro x
    field_simp
    ring
  simp only [closeTradeCalc]
  exact key _

/-- Witness for C4 at a concrete closed long trade. -/
theorem C4_witness :
    (closeTradeCalc true 100 1000 (50 * 2) 2 95).rResult
      = (closeTradeCalc true 100 1000 (50 * 2) 2 95).pnlDollar / (50 * 2) * 2 ∧
    (closeTradeCalc true 100 1000 (50 * 2) 2 95).rResult
      = (closeTradeCalc true 100 1000 (50 * 2) 2 95).pnlDollar / 50 :=
  C4_theorem true 100 1000 50 2 95 (by norm_num) (by norm_num)

/-- Max drawdown of a one-entry cumulative curve. -/
theorem mddLoop_single (r : ℚ) : mddLoop (1, 0) [1 * (1 + r)] = max 0 (-r) := by
  simp only [mddLoop, one_mul]
  rcases le_or_lt r 0 with h | h
  · have hpk : ¬ ((1 : ℚ) < 1 + r) := by linarith
    rw [if_neg hpk, if_pos (by norm_num : (0 : ℚ) < 1)]
    have hd : ((1 : ℚ) - (1 + r)) / 1 = -r := by ring
    rw [hd]
    by_cases h2 : 0 < -r
    · rw [if_pos h2]
      exact (max_eq_right h2.le).symm
    · rw [if_neg h2]
      exact (max_eq_left (not_lt.1 h2)).symm
  · have hpk : (1 : ℚ) < 1 + r := by linarith
    rw [if_pos hpk, if_pos (by linarith : (0 : ℚ) < 1 + r), sub_self, zero_div,
      if_neg (lt_irrefl 0), eq_comm]
    exact max_eq_left (by linarith)

/-- C5 counterexample.  The claim "`maxDrawdown == 0` for an empty or
single-trade input" is false on the code: a single losing trade gives a
strictly positive `maxDrawdown` (and on an empty series the code returns
`null`, not `0`). -/
theorem C5_counterexample :
    (calculateMetrics (buildReturnSeries [⟨some 0, some (-100)⟩] 1000).returnSeries).maxDrawdown
      ≠ some 0 := by
  have h1 : buildReturnSeries [⟨some 0, some (-100)⟩] 1000 =
      ⟨[⟨0, -(1 / 11)⟩], 1100, -100⟩ := by
    norm_num [buildReturnSeries, sortedTrades, hasData, brsFromSorted, seriesGo, pnlVal,
      closeVal, dayTrunc, msPerDay]
  rw [h1]
  have h2 : mddOf [⟨0, -(1 / 11)⟩] = 1 / 11 := by
    norm_num [mddOf, cumCurve, mddLoop, List.scanl]
  simp only [calculateMetrics, h2]
  norm_num

/-- C5 (amended).  On an empty return series every metric is `null`
(`maxDrawdown` included); on a single-entry series `sharpeRatio` is
`null` (zero volatility) and `maxDrawdown = max 0 (-r)` for the single
return `r` — zero only when the return is nonnegative.  The analytics
functions are total Lean functions, so they never throw. -/
theorem C5_amended :
    (∀ ib : ℚ, (buildReturnSeries [] ib).returnSeries = []) ∧
    (calculateMetrics []).sharpe = none ∧
    (calculateMetrics []).maxDrawdown = none ∧
    ∀ p : RetPoint,
      (calculateMetrics [p]).sharpe = none ∧
      (calculateMetrics [p]).maxDrawdown = some (max 0 (-p.ret)) := by
  refine ⟨fun ib => rfl, rfl, rfl, fun p => ?_⟩
  have hvar : varianceOf [p] = 0 := by
    simp [varianceOf]
  have hvol : annVolOf [p] = 0 := by
    simp [annVolOf, hvar]
  have hmdd : mddOf [p] = max 0 (-p.ret) := by
    simpa [mddOf, cumCurve] using mddLoop_single p.ret
  exact ⟨by simp [calculateMetrics, hvol], by simp [calculateMetrics, hmdd]⟩

/-- C9.  Closing a trade locally is positionwise: every position of the
list is mapped independently; a trade whose id differs from the target is
returned unchanged; and on the updated trade the spread sets exactly
`closePrice`, `closeDate`, `status`, `pnlPercent`, `pnlDollar`,
`rResult`, `comment`, leaving every open-side field (id, symbol, type,
openPrice, stopLoss, takeProfit, leverage, positionSize, riskAmount,
riskMultiple, openDate) unchanged. -/
theorem C9_theorem (trades : List Trade) (tid : ℕ) (cp : ℚ) (cd : String)
    (pp pd rr : ℚ) (cm : String) :
    (∀ i : ℕ,
      (updateTradeLocally trades tid cp cd pp pd rr cm).get? i
        = (trades.get? i).map
            (fun t => if t.id ≠ tid then t else closeFields cp cd pp pd rr cm t)) ∧
    (∀ t : Trade, t.id ≠ tid →
      (if t.id ≠ tid then t else closeFields cp cd pp pd rr cm t) = t) ∧
    (∀ t : Trade,
      (closeFields cp cd pp pd rr cm t).id = t.id ∧
      (closeFields cp cd pp pd rr cm t).symbol = t.symbol ∧
      (closeFields cp cd pp pd rr cm t).type = t.type ∧
      (closeFields cp cd pp pd rr cm t).openPrice = t.openPrice ∧
      (closeFields cp cd pp pd rr cm t).stopLoss = t.stopLoss ∧
      (closeFields cp cd pp pd rr cm t).takeProfit = t.takeProfit ∧
      (closeFields cp cd pp pd rr cm t).leverage = t.leverage ∧
      (closeFields cp cd pp pd rr cm t).positionSize = t.positionSize ∧
      (closeFields cp cd pp pd rr cm t).riskAmount = t.riskAmount ∧
      (closeFields cp cd pp pd rr cm t).riskMultiple = t.riskMultiple ∧
      (closeFields cp cd pp pd rr cm t).openDate = t.openDate ∧
      (closeFields cp cd pp pd rr cm t).closePrice = some cp ∧
      (closeFields cp cd pp pd rr cm t).closeDate = some cd ∧
      (closeFields cp cd pp pd rr cm t).status = "closed" ∧
      (closeFields cp cd pp pd rr cm t).pnlPercent = some pp ∧
      (closeFields cp cd pp pd rr cm t).pnlDollar = some pd ∧
      (closeFields cp cd pp pd rr cm t).rResult = some rr ∧
      (closeFields cp cd pp pd rr cm t).comment = some cm) := by
  refine ⟨fun i => ?_, fun t h => if_pos h, fun t => ?_⟩
  · simp [updateTradeLocally, List.get?_map]
  · exact ⟨rfl, rfl, rfl, rfl, rfl, rfl, rfl, rfl, rfl, rfl, rfl, rfl, rfl, rfl, rfl,
      rfl, rfl, rfl⟩

/-- Witness for C9: closing trade 7 in a two-trade list leaves trade 8
untouched and preserves trade 7's open price. -/
theorem C9_witness :
    (updateTradeLocally [sampleOpenTrade, sampleOtherTrade] 7 95 "2024-02-01" (-5) (-50) (-1)
        "stopped").get? 1 = some sampleOtherTrade ∧
    (closeFields 95 "2024-02-01" (-5) (-50) (-1) "stopped" sampleOpenTrade).openPrice
      = sampleOpenTrade.openPrice := by
  have h := C9_theorem [sampleOpenTrade, sampleOtherTrade] 7 95 "2024-02-01" (-5) (-50) (-1)
    "stopped"
  constructor
  · rw [h.1 1]
    show some (if sampleOtherTrade.id ≠ 7 then sampleOtherTrade
      else closeFields 95 "2024-02-01" (-5) (-50) (-1) "stopped" sampleOtherTrade)
        = some sampleOtherTrade
    rw [h.2.1 sampleOtherTrade (by decide)]
  · exact (h.2.2 sampleOpenTrade).2.2.2.1

/-- Every balance produced by the scanning function of the return-series
loop is nonnegative once the seed is. -/
theorem scanl_max_nonneg :
    ∀ (ts : List TradeRec) (s : ℚ), 0 ≤ s →
      ∀ b ∈ List.scanl (fun run t => max 0 (run + pnlVal t)) s ts, 0 ≤ b := by
  intro ts
  induction ts with
  | nil =>
    intro s hs b hb
    simp only [List.scanl, List.mem_singleton] at hb
    exact hb ▸ hs
  | cons t ts ih =>
    intro s hs b hb
    simp only [List.scanl, List.mem_cons] at hb
    rcases hb with rfl | hb
    · exact hs
    · exact ih _ (le_max_left 0 _) b hb

/-- Every return emitted by the series loop is clamped to `[-2, 2]`. -/
theorem seriesGo_ret_bounds :
    ∀ (ts : List TradeRec) (running : ℚ) (p : RetPoint), p ∈ seriesGo running ts →
      -2 ≤ p.ret ∧ p.ret ≤ 2 := by
  intro ts
  induction ts with
  | nil =>
    intro running p hp
    simp [seriesGo] at hp
  | cons t ts ih =>
    intro running p hp
    simp only [seriesGo, List.mem_cons] at hp
    rcases hp with rfl | hp
    · constructor
      · exact le_max_left _ _
      · exact max_le (by norm_num) (min_le_left _ _)
    · exact ih _ p hp

/-- C7 counterexample.  The claim's reading of the start-balance
reconstruction ("floored to `max(initialBalance × 0.1, 100)` when
`initialBalance - totalPnL` is non-positive") is false on the code: with
`initialBalance = 10000` and a single trade of `pnlDollar = 10000`, the
computed difference is `0`, and the code sets `startBalance` to
`max(initialBalance, 1000) = 10000`, not to `max(1000, 100) = 1000`. -/
theorem C7_counterexample :
    (buildReturnSeries [⟨some 0, some 10000⟩] 10000).startBalance
      ≠ max ((10000 : ℚ) * 0.1) 100 := by
  norm_num [buildReturnSeries, sortedTrades, hasData, brsFromSorted, seriesGo, pnlVal,
    closeVal, dayTrunc, msPerDay]

/-- C7 (amended).  For a non-empty filtered trade list the start balance
is `initialBalance - totalPnL`, *replaced by* `max(initialBalance, 1000)`
whenever that difference is below the threshold
`max(initialBalance × 0.1, 100)`; every per-trade return is capped to
`[-2, 2]`; and every running balance after a trade is
`max(0, running + pnlDollar)`, hence never negative. -/
theorem C7_amended (trades : List TradeRec) (ib : ℚ) (h : sortedTrades trades ≠ []) :
    ((buildReturnSeries trades ib).startBalance =
      if ib - (buildReturnSeries trades ib).totalPnL < max (ib * 0.1) 100 then max ib 1000
      else ib - (buildReturnSeries trades ib).totalPnL) ∧
    (∀ p ∈ (buildReturnSeries trades ib).returnSeries, -2 ≤ p.ret ∧ p.ret ≤ 2) ∧
    (∀ (start : ℚ) (ts : List TradeRec), ∀ b ∈ runningBalances start ts, 0 ≤ b) := by
  obtain ⟨a, ts, he⟩ := List.exists_cons_of_ne_nil h
  refine ⟨?_, ?_, ?_⟩
  · simp [buildReturnSeries, he, brsFromSorted]
  · intro p hp
    simp only [buildReturnSeries, he, brsFromSorted, List.length_cons, Nat.succ_ne_zero,
      if_false, ite_false] at hp
    exact seriesGo_ret_bounds _ _ p hp
  · intro start ts' b hb
    cases ts' with
    | nil => simp [runningBalances] at hb
    | cons u us =>
      simp only [runningBalances, List.scanl, List.tail_cons] at hb
      exact scanl_max_nonneg us _ (le_max_left 0 _) b hb

/-- Witness for C7 (amended) on a one-trade list. -/
theorem C7_witness :
    ((buildReturnSeries [⟨some 0, some (-100)⟩] 1000).startBalance =
      if 1000 - (buildReturnSeries [⟨some 0, some (-100)⟩] 1000).totalPnL
          < max ((1000 : ℚ) * 0.1) 100 then max (1000 : ℚ) 1000
      else 1000 - (buildReturnSeries [⟨some 0, some (-100)⟩] 1000).totalPnL) ∧
    (∀ p ∈ (buildReturnSeries [⟨some 0, some (-100)⟩] 1000).returnSeries,
      -2 ≤ p.ret ∧ p.ret ≤ 2) ∧
    (∀ (start : ℚ) (ts : List TradeRec), ∀ b ∈ runningBalances start ts, 0 ≤ b) :=
  C7_amended [⟨some 0, some (-100)⟩] 1000 (by norm_num [sortedTrades, hasData])

/-- Reading a key that is not at the head skips the head entry. -/
theorem objGet_cons_ne (k' : ℤ) (v' : ℕ) (m : List (ℤ × ℕ)) (k : ℤ) (h : k' ≠ k) :
    objGet ((k', v') :: m) k = objGet m k := by
  simp [objGet, h]

/-- Reading the head key returns the head count. -/
theorem objGet_cons_eq (k : ℤ) (v' : ℕ) (m : List (ℤ × ℕ)) :
    objGet ((k, v') :: m) k = v' := by
  simp [objGet]

/-- Incrementing one bucket raises the total count by exactly one. -/
theorem objSet_bump_sum (m : List (ℤ × ℕ)) (k : ℤ) :
    ((objSet m k (objGet m k + 1)).map Prod.snd).sum = (m.map Prod.snd).sum + 1 := by
  induction m with
  | nil => simp [objSet, objGet]
  | cons e rest ih =>
    obtain ⟨k', v'⟩ := e
    by_cases h : k' = k
    · subst h
      rw [objGet_cons_eq]
      simp [objSet]
      omega
    · rw [objGet_cons_ne k' v' rest k h]
      simp only [objSet, if_neg h, List.map_cons, List.sum_cons, ih]
      omega

/-- Folding a one-per-element bucket bump over a list raises the total
count by the list length. -/
theorem foldl_sum_bump {α : Type} (g : List (ℤ × ℕ) → α → List (ℤ × ℕ))
    (hg : ∀ m p, ((g m p).map Prod.snd).sum = (m.map Prod.snd).sum + 1) :
    ∀ (ps : List α) (m : List (ℤ × ℕ)),
      ((ps.foldl g m).map Prod.snd).sum = (m.map Prod.snd).sum + ps.length := by
  intro ps
  induction ps with
  | nil => intro m; simp
  | cons p ps ih =>
    intro m
    simp only [List.foldl_cons, List.length_cons, ih, hg]
    omega

/-- Writing a zero count preserves "all counts are zero". -/
theorem objSet_zero_mem :
    ∀ (m : List (ℤ × ℕ)), (∀ e ∈ m, e.2 = 0) → ∀ (k : ℤ), ∀ e ∈ objSet m k 0, e.2 = 0 := by
  intro m
  induction m with
  | nil =>
    intro _ k e he
    simp only [objSet, List.mem_singleton] at he
    simp [he]
  | cons a rest ih =>
    obtain ⟨k', v'⟩ := a
    intro hm k e he
    simp only [objSet] at he
    by_cases h : k' = k
    · rw [if_pos h] at he
      rcases List.mem_cons.1 he with rfl | he2
      · rfl
      · exact hm e (List.mem_cons_of_mem _ he2)
    · rw [if_neg h] at he
      rcases List.mem_cons.1 he with rfl | he2
      · exact hm _ (List.mem_cons_self _ _)
      · exact ih (fun x hx => hm x (List.mem_cons_of_mem _ hx)) k e he2

/-- Initializing buckets with zeros keeps every count zero. -/
theorem foldl_objSet_zero {α : Type} (f : α → ℤ) :
    ∀ (l : List α) (m : List (ℤ × ℕ)), (∀ e ∈ m, e.2 = 0) →
      ∀ e ∈ l.foldl (fun m i => objSet m (f i) 0) m, e.2 = 0 := by
  intro l
  induction l with
  | nil => intro m hm; simpa using hm
  | cons a l ih =>
    intro m hm
    simp only [List.foldl_cons]
    exact ih _ (objSet_zero_mem m hm (f a))

/-- A list whose entries all carry count zero has total count zero. -/
theorem map_snd_sum_zero {m : List (ℤ × ℕ)} (hm : ∀ e ∈ m, e.2 = 0) :
    (m.map Prod.snd).sum = 0 := by
  apply List.sum_eq_zero
  intro x hx
  obtain ⟨e, he, rfl⟩ := List.mem_map.1 hx
  exact hm e he

/-- C10.  Each per-trade percent return is assigned to exactly one bucket
(its clamped index lies in `[0, numBuckets - 1]`), so the bucket counts of
`buildHistogramData` sum to the length of the return series. -/
theorem C10_theorem (rs : List RetPoint) (nb : ℕ) (h1 : 0 < nb) (h2 : rs ≠ []) :
    ((buildHistogramData rs nb).map Prod.snd).sum = rs.length ∧
    (∀ q : ℚ, 0 ≤ max 0 (min ⌊q⌋ ((nb : ℤ) - 1)) ∧
      max 0 (min ⌊q⌋ ((nb : ℤ) - 1)) ≤ (nb : ℤ) - 1) := by
  constructor
  · obtain ⟨r, rest, rfl⟩ := List.exists_cons_of_ne_nil h2
    simp only [buildHistogramData, List.map_cons]
    refine Eq.trans (((List.perm_insertionSort _ _).map Prod.snd).sum_eq) ?_
    rw [foldl_sum_bump _ (fun m p => objSet_bump_sum m _) _ _]
    rw [map_snd_sum_zero (foldl_objSet_zero _ _ [] (by simp))]
    simp
  · intro q
    have h0 : (0 : ℤ) ≤ (nb : ℤ) - 1 := by omega
    exact ⟨le_max_left _ _, max_le h0 (min_le_right _ _)⟩

/-- Witness for C10 on a one-return series with the default 12 buckets. -/
theorem C10_witness :
    ((buildHistogramData [⟨0, 1 / 10⟩] 12).map Prod.snd).sum
        = ([⟨0, 1 / 10⟩] : List RetPoint).length ∧
    (∀ q : ℚ, 0 ≤ max 0 (min ⌊q⌋ ((12 : ℤ) - 1)) ∧
      max 0 (min ⌊q⌋ ((12 : ℤ) - 1)) ≤ (12 : ℤ) - 1) :=
  C10_theorem [⟨0, 1 / 10⟩] 12 (by norm_num) (by simp)

/-- A left fold accumulating `f` over a list is the sum of the mapped
list. -/
theorem foldl_add_map (f : RetPoint → ℚ) :
    ∀ (rs : List RetPoint) (a : ℚ), rs.foldl (fun s r => s + f r) a = a + (rs.map f).sum := by
  intro rs
  induction rs with
  | nil => intro a; simp
  | cons r rs ih =>
    intro a
    simp only [List.foldl_cons, List.map_cons, List.sum_cons, ih]
    ring

/-- The source's fold-computed sample variance agrees with the spec's
description of the Bessel-corrected sample variance. -/
theorem varianceOf_eq_spec (rs : List RetPoint) : varianceOf rs = specSampleVariance rs := by
  rw [varianceOf, specSampleVariance]
  simp only [avgOf, foldl_add_map, zero_add]

/-- C6 counterexample.  The claim annualizes by `sqrt(periodsPerYear)`,
but the code annualizes by `sqrt(max(periodsPerYear, 1))`; for two trades
three years apart `periodsPerYear = 2/3 < 1` and the two values differ. -/
theorem C6_counterexample :
    (calculateMetrics [⟨0, 1 / 10⟩, ⟨94672800000, -(1 / 10)⟩]).annualizedVolatility
      ≠ some (claimAnnVol [⟨0, 1 / 10⟩, ⟨94672800000, -(1 / 10)⟩]) := by
  have h1 : varianceOf [⟨0, 1 / 10⟩, ⟨94672800000, -(1 / 10)⟩] = 1 / 50 := by
    norm_num [varianceOf, avgOf]
  have h3 : specSampleVariance [⟨0, 1 / 10⟩, ⟨94672800000, -(1 / 10)⟩] = 1 / 50 := by
    rw [← varianceOf_eq_spec]
    exact h1
  have h2 : ppyOf [⟨0, 1 / 10⟩, ⟨94672800000, -(1 / 10)⟩] = 2 / 3 := by
    norm_num [ppyOf, yearsOf, lastDateOf, firstDateOf, msPerYear, List.getLastD]
  simp only [calculateMetrics, annVolOf, claimAnnVol, h1, h2, h3]
  rw [show (max (2 / 3 : ℚ) 1) = 1 from by norm_num]
  intro hc
  rw [Option.some_inj, Rat.cast_one, Real.sqrt_one, mul_one] at hc
  have hpos : 0 < Real.sqrt ((1 / 50 : ℚ) : ℝ) := Real.sqrt_pos.2 (by norm_num)
  have hlt : Real.sqrt ((2 / 3 : ℚ) : ℝ) < 1 := by
    have := Real.sqrt_lt_sqrt (show (0 : ℝ) ≤ ((2 / 3 : ℚ) : ℝ) by norm_num)
      (show ((2 / 3 : ℚ) : ℝ) < 1 by norm_num)
    rwa [Real.sqrt_one] at this
  have hmul := mul_lt_mul_of_pos_left hlt hpos
  rw [mul_one] at hmul
  linarith [hc ▸ hmul]

/-- C6 (amended).  For every non-empty return series,
`annualizedVolatility` is the Bessel-corrected sample standard deviation
of the per-trade returns multiplied by `sqrt(max(periodsPerYear, 1))`,
with `periodsPerYear = n / years` and
`years = max(span in days / 365.25, 1/365.25)`. -/
theorem C6_amended (rs : List RetPoint) (h : rs ≠ []) :
    (calculateMetrics rs).annualizedVolatility
      = some (Real.sqrt (specSampleVariance rs) * Real.sqrt ((max (ppyOf rs) 1 : ℚ))) := by
  obtain ⟨r, rest, rfl⟩ := List.exists_cons_of_ne_nil h
  simp only [calculateMetrics, annVolOf, varianceOf_eq_spec]

/-- Witness for C6 (amended) on a one-entry series. -/
theorem C6_witness :
    (calculateMetrics [⟨0, 0⟩]).annualizedVolatility
      = some (Real.sqrt (specSampleVariance [⟨0, 0⟩])
          * Real.sqrt ((max (ppyOf [⟨0, 0⟩]) 1 : ℚ))) :=
  C6_amended [⟨0, 0⟩] (by simp)

/-- Two sorted permutations of each other with pairwise-distinct keys are
equal. -/
theorem sorted_key_perm_eq (key : TradeRec → ℚ) :
    ∀ (l₁ l₂ : List TradeRec), l₁.Perm l₂ →
      l₁.Pairwise (fun a b => key a ≤ key b) →
      l₂.Pairwise (fun a b => key a ≤ key b) →
      l₁.Pairwise (fun a b => key a ≠ key b) → l₁ = l₂ := by
  intro l₁
  induction l₁ with
  | nil =>
    intro l₂ hp _ _ _
    exact hp.nil_eq
  | cons a t ih =>
    intro l₂ hp hs1 hs2 hd
    cases l₂ with
    | nil => simpa using hp.length_eq
    | cons b t₂ =>
      have hab : a = b := by
        by_contra hne
        have hbmem : b ∈ a :: t := hp.symm.subset (List.mem_cons_self b t₂)
        have hamem : a ∈ b :: t₂ := hp.subset (List.mem_cons_self a t)
        have hbt : b ∈ t := by
          rcases List.mem_cons.1 hbmem with h | h
          · exact absurd h.symm hne
          · exact h
        have hat2 : a ∈ t₂ := by
          rcases List.mem_cons.1 hamem with h | h
          · exact absurd h hne
          · exact h
        have h1 : key a ≤ key b := (List.pairwise_cons.1 hs1).1 b hbt
        have h2 : key b ≤ key a := (List.pairwise_cons.1 hs2).1 a hat2
        exact (List.pairwise_cons.1 hd).1 b hbt (le_antisymm h1 h2)
      subst hab
      have hpt : t.Perm t₂ := hp.cons_inv
      rw [ih t₂ hpt (List.pairwise_cons.1 hs1).2 (List.pairwise_cons.1 hs2).2
        (List.pairwise_cons.1 hd).2]

/-- C8.  For two permuted trade lists with pairwise-distinct `closeDate`s,
`buildReturnSeries` produces identical output: the filter keeps a
permuted sublist, the sort puts both into the unique sorted order, and
everything downstream is a function of the sorted list alone. -/
theorem C8_theorem (l₁ l₂ : List TradeRec) (ib : ℚ) (hp : l₁.Perm l₂)
    (hd : l₁.Pairwise (fun a b => a.closeDate ≠ b.closeDate)) :
    buildReturnSeries l₁ ib = buildReturnSeries l₂ ib := by
  haveI : IsTotal TradeRec (fun a b => closeVal a ≤ closeVal b) := ⟨fun a b => le_total _ _⟩
  haveI : IsTrans TradeRec (fun a b => closeVal a ≤ closeVal b) :=
    ⟨fun a b c hab hbc => le_trans hab hbc⟩
  have hf : (l₁.filter hasData).Perm (l₂.filter hasData) := hp.filter hasData
  have hdf : (l₁.filter hasData).Pairwise (fun a b => closeVal a ≠ closeVal b) := by
    have h0 : (l₁.filter hasData).Pairwise (fun a b => a.closeDate ≠ b.closeDate) :=
      List.Pairwise.sublist (List.filter_sublist _) hd
    refine h0.imp_of_mem ?_
    intro a b ha hb hR hkey
    apply hR
    have ha2 : a.closeDate.isSome = true := by
      have h := (List.mem_filter.1 ha).2
      simp only [hasData, Bool.and_eq_true] at h
      exact h.1
    have hb2 : b.closeDate.isSome = true := by
      have h := (List.mem_filter.1 hb).2
      simp only [hasData, Bool.and_eq_true] at h
      exact h.1
    obtain ⟨x, hx⟩ := Option.isSome_iff_exists.1 ha2
    obtain ⟨y, hy⟩ := Option.isSome_iff_exists.1 hb2
    rw [closeVal, closeVal, hx, hy, Option.getD_some, Option.getD_some] at hkey
    rw [hx, hy, hkey]
  have hs1 := List.sorted_insertionSort (fun a b => closeVal a ≤ closeVal b) (l₁.filter hasData)
  have hs2 := List.sorted_insertionSort (fun a b => closeVal a ≤ closeVal b) (l₂.filter hasData)
  have hps : (sortedTrades l₁).Perm (sortedTrades l₂) := by
    unfold sortedTrades
    exact (List.perm_insertionSort _ _).trans (hf.trans (List.perm_insertionSort _ _).symm)
  have hdsorted : (sortedTrades l₁).Pairwise (fun a b => closeVal a ≠ closeVal b) := by
    unfold sortedTrades
    exact ((List.perm_insertionSort _ _).pairwise_iff (fun h e => h e.symm)).2 hdf
  have heq : sortedTrades l₁ = sortedTrades l₂ :=
    sorted_key_perm_eq closeVal _ _ hps hs1 hs2 hdsorted
  rw [buildReturnSeries, buildReturnSeries, heq]

/-- Witness for C8 on a two-trade list and its reversal. -/
theorem C8_witness :
    buildReturnSeries [⟨some 1, some 5⟩, ⟨some 2, some (-3)⟩] 100
      = buildReturnSeries [⟨some 2, some (-3)⟩, ⟨some 1, some 5⟩] 100 :=
  C8_theorem _ _ 100
    (List.Perm.swap (⟨some 2, some (-3)⟩ : TradeRec) (⟨some 1, some 5⟩ : TradeRec) [])
    (by simp)
